import Mathlib

/-!
Shallow embedding of the chunked-upload server (Express backend, main
variant).  The embedding covers the token registry with its expiry sweep
(requireUnlock, setInterval sweep), the in-flight session map, the
POST /api/upload/chunk handler, the POST /api/upload/finish handler with
its marker-file fallback path, and the periodic reaper sweep.  All maps
are association lists keyed by strings; the on-disk staging directory is
a map from file name to the list of appended buffer sizes; time is a Nat
millisecond clock passed explicitly.
-/

namespace Srv

/-- Association-list lookup, first binding wins (Map.get semantics). -/
def alookup {α : Type} : List (String × α) → String → Option α
  | [], _ => none
  | p :: rest, k => if p.1 = k then some p.2 else alookup rest k

/-- Association-list insert-or-replace (Map.set semantics). -/
def ainsert {α : Type} : List (String × α) → String → α → List (String × α)
  | [], k, v => [(k, v)]
  | p :: rest, k, v => if p.1 = k then (k, v) :: rest else p :: ainsert rest k v

/-- Association-list removal of every binding of a key (Map.delete, unlink). -/
def aerase {α : Type} (l : List (String × α)) (k : String) : List (String × α) :=
  l.filter (fun p => p.1 ≠ k)

/-- Boolean test that the first char list starts the second one. -/
def leadMatch : List Char → List Char → Bool
  | [], _ => true
  | _ :: _, [] => false
  | a :: as, b :: bs => a == b && leadMatch as bs

/-- Boolean substring search over char lists. -/
def hasSub (sub : List Char) : List Char → Bool
  | [] => leadMatch sub []
  | c :: rest => leadMatch sub (c :: rest) || hasSub sub rest

/-- JavaScript String.prototype.includes. -/
def strIncludes (s sub : String) : Bool := hasSub sub.data s.data

/-- JavaScript String.prototype.toLowerCase restricted to ASCII. -/
def jsToLower (s : String) : String := ⟨s.data.map Char.toLower⟩

/-- Whitespace test used by the trim model. -/
def isWs (c : Char) : Bool := c == ' ' || c == '\t' || c == '\n' || c == '\r'

/-- JavaScript String.prototype.trim. -/
def jsTrim (s : String) : String :=
  ⟨((s.data.dropWhile isWs).reverse.dropWhile isWs).reverse⟩

/-- TOKEN_TTL_MS default: 120 * 60 * 1000. -/
def TOKEN_TTL_MS : Nat := 120 * 60 * 1000

/-- UPLOAD_CHUNK_LIMIT_BYTES default: 8 MB. -/
def UPLOAD_CHUNK_LIMIT_BYTES : Nat := 8 * 1024 * 1024

/-- PER_UPLOAD_MAX_BYTES default: 3 GB. -/
def PER_UPLOAD_MAX_BYTES : Nat := 3 * 1024 * 1024 * 1024

/-- INFLIGHT_TTL_MS default: 120 * 60 * 1000. -/
def INFLIGHT_TTL_MS : Nat := 120 * 60 * 1000

/-- safeExt: mimetype to safe file extension, defaulting to .webm. -/
def safeExt (mime : Option String) : String :=
  match mime with
  | none => ".webm"
  | some raw =>
    if raw = "" then ".webm"
    else
      let m := jsToLower raw
      if strIncludes m "webm" then ".webm"
      else if strIncludes m "mp4" then ".mp4"
      else if strIncludes m "quicktime" then ".mov"
      else ".webm"

/-- One entry of the activeTokens map: the user label and issue time. -/
structure TokenSess where
  userLabel : String
  issuedAt : Nat
  deriving DecidableEq

/-- One entry of an in-flight upload session (the sess object of the
chunk handler); the write stream itself is abstracted away, the file it
appends to is tracked through filepath in the files map. -/
structure Session where
  filepath : String
  ext : String
  nextIndex : Nat
  userLabel : String
  ownerTok : String
  slot : Int
  lastTouched : Nat
  bytes : Nat
  deriving DecidableEq

/-- One .owner marker file: the stored token and the file mtime. -/
structure Marker where
  tok : String
  mtime : Nat
  deriving DecidableEq

/-- Whole observable server state: the activeTokens map, the inFlight
map, the staging/artifact directory (file name to list of appended
buffer sizes), and the .owner marker files. -/
structure ServerState where
  activeTokens : List (String × TokenSess)
  inFlight : List (String × Session)
  files : List (String × List Nat)
  markers : List (String × Marker)
  deriving DecidableEq

/-- Body of a chunk request after multer parsing: uploadId, mimeType,
index (null when not a finite number), slot, and the chunk buffer
modelled by its byte size (none when no file part was sent). -/
structure ChunkBody where
  uploadId : String
  mimeType : Option String
  index : Option Int
  slot : Int
  chunk : Option Nat
  deriving DecidableEq

/-- Response of the chunk endpoint. -/
inductive ChunkRes where
  | ok (nextIndex : Nat)
  | badRequest
  | badSlot
  | slotMismatch
  | outOfOrder (expected : Nat)
  | notOwner
  | tooLarge
  | locked
  deriving DecidableEq

/-- HTTP status carried by each chunk response. -/
def ChunkRes.status : ChunkRes → Nat
  | .ok _ => 200
  | .badRequest => 400
  | .badSlot => 400
  | .slotMismatch => 409
  | .outOfOrder _ => 409
  | .notOwner => 403
  | .tooLarge => 413
  | .locked => 403

/-- Response of the finish endpoint; okMem is the in-memory path body
with id and url, okFallback is the marker-fallback path body with id,
fileName and path. -/
inductive FinishRes where
  | okMem (id url : String)
  | okFallback (id fileName pathv : String)
  | badRequest
  | badSlot
  | notOwner
  | unknownUpload
  | finalizeFailed
  | locked
  deriving DecidableEq

/-- HTTP status carried by each finish response. -/
def FinishRes.status : FinishRes → Nat
  | .okMem _ _ => 200
  | .okFallback _ _ _ => 200
  | .badRequest => 400
  | .badSlot => 400
  | .notOwner => 403
  | .unknownUpload => 404
  | .finalizeFailed => 500
  | .locked => 403

/-- requireUnlock middleware: looks the header token up in activeTokens;
on a hit it refreshes issuedAt (sliding expiry) and yields the token and
user label, otherwise it answers 403 Locked.  There is no age check
here; expiry happens only in the periodic sweep. -/
def requireUnlock (toks : List (String × TokenSess)) (hdr : Option String) (now : Nat) :
    Option (String × String) × List (String × TokenSess) :=
  match hdr with
  | none => (none, toks)
  | some t =>
    match alookup toks t with
    | none => (none, toks)
    | some s => (some (t, s.userLabel), ainsert toks t { s with issuedAt := now })

/-- The setInterval sweep over activeTokens: drops every token whose
issuedAt is strictly below now - TOKEN_TTL_MS. -/
def tokenSweep (toks : List (String × TokenSess)) (now : Nat) : List (String × TokenSess) :=
  toks.filter (fun p => ¬ (p.2.issuedAt < now - TOKEN_TTL_MS))

/-- The fresh sess object built by the chunk handler when no session
exists for the uploadId. -/
def freshSession (b : ChunkBody) (token lbl : String) (now : Nat) : Session :=
  let e := safeExt b.mimeType
  { filepath := b.uploadId ++ e, ext := e, nextIndex := 0, userLabel := lbl,
    ownerTok := token, slot := b.slot, lastTouched := now, bytes := 0 }

/-- Session creation: createWriteStream with the append flag creates the
staging file (kept if already present), the .owner marker is written
with the wx flag (left untouched if already present), and the session is
put into inFlight. -/
def createSessionState (st : ServerState) (b : ChunkBody) (token lbl : String) (now : Nat) :
    Session × ServerState :=
  let s := freshSession b token lbl now
  let files1 := match alookup st.files s.filepath with
                | some _ => st.files
                | none => ainsert st.files s.filepath []
  let markers1 := match alookup st.markers b.uploadId with
                  | some _ => st.markers
                  | none => ainsert st.markers b.uploadId { tok := token, mtime := now }
  (s, { st with inFlight := ainsert st.inFlight b.uploadId s,
                files := files1, markers := markers1 })

/-- Accepted-chunk effect: the buffer is appended to the staging file,
then nextIndex, bytes and lastTouched are advanced on the stored
session. -/
def writeChunkState (st : ServerState) (uid : String) (sess : Session) (size now : Nat) :
    ServerState :=
  { st with
    files := ainsert st.files sess.filepath
      (((alookup st.files sess.filepath).getD []) ++ [size]),
    inFlight := ainsert st.inFlight uid
      { sess with nextIndex := sess.nextIndex + 1, bytes := sess.bytes + size,
                  lastTouched := now } }

/-- The four per-session checks of the chunk handler, in source order:
slot mismatch (409), index mismatch (409 with expected), owner mismatch
(403), size ceiling (413); when all pass, the write is performed and the
response carries the advanced nextIndex. -/
def chunkChecks (st : ServerState) (b : ChunkBody) (token : String) (sess : Session)
    (size idx now : Nat) : ChunkRes × ServerState :=
  if b.slot ≠ sess.slot then (.slotMismatch, st)
  else if idx ≠ sess.nextIndex then (.outOfOrder sess.nextIndex, st)
  else if sess.ownerTok ≠ token then (.notOwner, st)
  else if sess.bytes + size > PER_UPLOAD_MAX_BYTES then (.tooLarge, st)
  else (.ok (sess.nextIndex + 1), writeChunkState st b.uploadId sess size now)

/-- POST /api/upload/chunk after requireUnlock: basic validation (400),
slot range validation (400), then session lookup or creation, then the
per-session checks and the write. -/
def chunkHandler (st : ServerState) (b : ChunkBody) (token lbl : String) (now : Nat) :
    ChunkRes × ServerState :=
  match b.chunk, b.index with
  | some size, some i =>
    if b.uploadId = "" ∨ i < 0 then (.badRequest, st)
    else if ¬ (1 ≤ b.slot ∧ b.slot ≤ 6) then (.badSlot, st)
    else
      match alookup st.inFlight b.uploadId with
      | some sess => chunkChecks st b token sess size i.toNat now
      | none =>
        let c := createSessionState st b token lbl now
        chunkChecks c.2 b token c.1 size i.toNat now
  | _, _ => (.badRequest, st)

/-- Full chunk endpoint: requireUnlock first, then the handler.  A
missing or unknown token answers 403 Locked and touches nothing. -/
def chunkEndpoint (st : ServerState) (hdr : Option String) (b : ChunkBody) (now : Nat) :
    ChunkRes × ServerState :=
  match requireUnlock st.activeTokens hdr now with
  | (none, toks) => (.locked, { st with activeTokens := toks })
  | (some tl, toks) =>
    chunkHandler { st with activeTokens := toks } b tl.1 tl.2 now

/-- Failure-injection switches for the awaited filesystem calls of the
finish handler: stream end and rename. -/
structure FsFault where
  endFails : Bool
  renameFails : Bool
  deriving DecidableEq

/-- No injected filesystem failure. -/
def noFault : FsFault := { endFails := false, renameFails := false }

/-- Final artifact name: label (or User when empty) ++ Oppgave ++ slot
++ dash ++ timestamp ++ extension. -/
def finalNameOf (label : String) (slot : Int) (ts e : String) : String :=
  (if label = "" then "User" else label) ++ "Oppgave" ++ toString slot ++ "-" ++ ts ++ e

/-- Probe of the staging directory in the fallback path, in source
order over the known extension set. -/
def probeExt (files : List (String × List Nat)) (uid : String) : Option String :=
  if (alookup files (uid ++ ".webm")).isSome then some ".webm"
  else if (alookup files (uid ++ ".mp4")).isSome then some ".mp4"
  else if (alookup files (uid ++ ".mov")).isSome then some ".mov"
  else none

/-- In-memory finalize effect: rename of the staging file to the final
name, removal of the session from inFlight, unlink of the marker. -/
def finalizeMemState (st : ServerState) (uid finalName : String) (sess : Session) :
    ServerState :=
  { st with
    files := ainsert (aerase st.files sess.filepath) finalName
      ((alookup st.files sess.filepath).getD []),
    inFlight := aerase st.inFlight uid,
    markers := aerase st.markers uid }

/-- Fallback finalize effect: rename of the probed file to the final
name and unlink of the marker. -/
def finalizeFallbackState (st : ServerState) (uid e finalName : String) : ServerState :=
  { st with
    files := ainsert (aerase st.files (uid ++ e)) finalName
      ((alookup st.files (uid ++ e)).getD []),
    markers := aerase st.markers uid }

/-- POST /api/upload/finish after requireUnlock.  With an in-memory
session: owner check (403), awaited stream end then rename (a failure of
either is caught and answered 500 with nothing deleted), then session
removal, marker unlink and the id/url body.  Without a session: marker
lookup (404 when absent), trimmed stored token against the requester
token (403), extension probe (404 when nothing found), rename (500 on
failure), marker unlink and the id/fileName/path body. -/
def finishHandler (st : ServerState) (uploadId : Option String) (slot : Int)
    (token lbl ts : String) (fault : FsFault) : FinishRes × ServerState :=
  match uploadId with
  | none => (.badRequest, st)
  | some uid =>
    if uid = "" then (.badRequest, st)
    else if ¬ (1 ≤ slot ∧ slot ≤ 6) then (.badSlot, st)
    else
      match alookup st.inFlight uid with
      | some sess =>
        if sess.ownerTok ≠ token then (.notOwner, st)
        else if fault.endFails then (.finalizeFailed, st)
        else if fault.renameFails then (.finalizeFailed, st)
        else
          let finalName := finalNameOf sess.userLabel slot ts sess.ext
          (.okMem uid ("/uploads/" ++ finalName), finalizeMemState st uid finalName sess)
      | none =>
        match alookup st.markers uid with
        | none => (.unknownUpload, st)
        | some m =>
          if jsTrim m.tok ≠ token then (.notOwner, st)
          else
            match probeExt st.files uid with
            | none => (.unknownUpload, st)
            | some e =>
              if fault.renameFails then (.finalizeFailed, st)
              else
                let finalName := finalNameOf lbl slot ts e
                (.okFallback uid finalName ("/uploads/" ++ finalName),
                 finalizeFallbackState st uid e finalName)

/-- Full finish endpoint: requireUnlock first, then the handler. -/
def finishEndpoint (st : ServerState) (hdr : Option String) (uploadId : Option String)
    (slot : Int) (ts : String) (now : Nat) (fault : FsFault) : FinishRes × ServerState :=
  match requireUnlock st.activeTokens hdr now with
  | (none, toks) => (.locked, { st with activeTokens := toks })
  | (some tl, toks) =>
    finishHandler { st with activeTokens := toks } uploadId slot tl.1 tl.2 ts fault

/-- One step of the reaper over one inFlight entry: a session idle
longer than INFLIGHT_TTL_MS has its stream ended (not observable here),
its staging file unlinked, its inFlight entry deleted and its marker
unlinked. -/
def reapOne (now : Nat) (acc : ServerState) (p : String × Session) : ServerState :=
  if now - p.2.lastTouched > INFLIGHT_TTL_MS then
    { acc with inFlight := aerase acc.inFlight p.1,
               files := aerase acc.files p.2.filepath,
               markers := aerase acc.markers p.1 }
  else acc

/-- The periodic reaper sweep: first pass over the inFlight entries,
second pass unlinking every .owner marker older than INFLIGHT_TTL_MS. -/
def reaperSweep (st : ServerState) (now : Nat) : ServerState :=
  let st1 := st.inFlight.foldl (reapOne now) st
  { st1 with markers := st1.markers.filter (fun p => ¬ (now - p.2.mtime > INFLIGHT_TTL_MS)) }

/-- Program point of one chunk request for the interleaving model of
the handler body on an existing session: the synchronous check block,
the suspension at the awaited stream write, and the finished response.
The event loop may run the check block of another request while one
request is suspended at its write. -/
inductive Phase where
  | start
  | writing
  | done (r : ChunkRes)
  deriving DecidableEq

/-- One chunk request of the race model: declared index, slot, token
and buffer size. -/
structure RaceReq where
  index : Nat
  slot : Int
  token : String
  size : Nat
  deriving DecidableEq

/-- Shared state of the race model: the one session both requests
address, the staging-file content, and each request program point. -/
structure RaceState where
  sess : Session
  content : List Nat
  pcA : Phase
  pcB : Phase
  deriving DecidableEq

/-- Synchronous check block of the handler (source order), issuing the
stream write on success: the buffer is queued to the file at issue time,
the counters are only advanced when the awaited write resolves. -/
def issueChecks (s : Session) (content : List Nat) (r : RaceReq) : Phase × List Nat :=
  if r.slot ≠ s.slot then (.done .slotMismatch, content)
  else if r.index ≠ s.nextIndex then (.done (.outOfOrder s.nextIndex), content)
  else if s.ownerTok ≠ r.token then (.done .notOwner, content)
  else if s.bytes + r.size > PER_UPLOAD_MAX_BYTES then (.done .tooLarge, content)
  else (.writing, content ++ [r.size])

/-- Continuation after the awaited write resolves: nextIndex, bytes and
lastTouched advance and the ok response carries the new nextIndex. -/
def resolveWrite (s : Session) (r : RaceReq) (now : Nat) : Session × ChunkRes :=
  let s2 := { s with nextIndex := s.nextIndex + 1, bytes := s.bytes + r.size,
                     lastTouched := now }
  (s2, .ok s2.nextIndex)

/-- One scheduler step: run the next pending block of request A (true)
or request B (false). -/
def raceStep (reqA reqB : RaceReq) (now : Nat) (st : RaceState) (which : Bool) : RaceState :=
  if which then
    match st.pcA with
    | .start =>
      let pr := issueChecks st.sess st.content reqA
      { st with pcA := pr.1, content := pr.2 }
    | .writing =>
      let sr := resolveWrite st.sess reqA now
      { st with sess := sr.1, pcA := .done sr.2 }
    | .done _ => st
  else
    match st.pcB with
    | .start =>
      let pr := issueChecks st.sess st.content reqB
      { st with pcB := pr.1, content := pr.2 }
    | .writing =>
      let sr := resolveWrite st.sess reqB now
      { st with sess := sr.1, pcB := .done sr.2 }
    | .done _ => st

/-- Run of the race model under an explicit schedule. -/
def raceRun (reqA reqB : RaceReq) (now : Nat) (st : RaceState) (sched : List Bool) :
    RaceState :=
  sched.foldl (raceStep reqA reqB now) st

/-- Concrete session fixture: slot 1, owner token tok, nothing written. -/
def exSess : Session :=
  { filepath := "u.webm", ext := ".webm", nextIndex := 0, userLabel := "Tester1",
    ownerTok := "tok", slot := 1, lastTouched := 0, bytes := 0 }

/-- Concrete server state holding exSess with its staging file and
marker, and one issued token. -/
def exState : ServerState :=
  { activeTokens := [("tok", { userLabel := "Tester1", issuedAt := 0 })],
    inFlight := [("u", exSess)],
    files := [("u.webm", [])],
    markers := [("u", { tok := "tok", mtime := 0 })] }

/-- Concrete chunk body: uploadId u, webm, index 0, slot 1, 5 bytes. -/
def exBody : ChunkBody :=
  { uploadId := "u", mimeType := some "video/webm", index := some 0, slot := 1,
    chunk := some 5 }

/-- exBody with a wrong declared index. -/
def exBodyWrongIdx : ChunkBody := { exBody with index := some 5 }

/-- exBody with a mismatched slot. -/
def exBodySlot2 : ChunkBody := { exBody with slot := 2 }

/-- exBody declaring index 1 as the very first chunk. -/
def exBodyIdx1 : ChunkBody := { exBody with index := some 1 }

/-- Server state with an issued token and nothing in flight. -/
def exEmptyState : ServerState :=
  { activeTokens := [("tok", { userLabel := "Tester1", issuedAt := 0 })],
    inFlight := [], files := [], markers := [] }

/-- Post-restart state: no in-memory session, but the staging file and
the marker of upload u are on disk. -/
def exRestartState : ServerState :=
  { activeTokens := [], inFlight := [],
    files := [("u.webm", [2, 3])],
    markers := [("u", { tok := "tok", mtime := 0 })] }

/-- State whose only token was issued at time 0 and never swept. -/
def exStaleState : ServerState :=
  { activeTokens := [("t", { userLabel := "Tester1", issuedAt := 0 })],
    inFlight := [], files := [], markers := [] }

/-- Race fixture: both concurrent requests declare index 0 on slot 1. -/
def exRaceReq : RaceReq := { index := 0, slot := 1, token := "tok", size := 5 }

/-- Race fixture initial state over exSess with an empty staging file. -/
def exRaceInit : RaceState :=
  { sess := exSess, content := [], pcA := Phase.start, pcB := Phase.start }

/-- Lookup after insert at the inserted key. -/
theorem alookup_ainsert_self {α : Type} (l : List (String × α)) (k : String) (v : α) :
    alookup (ainsert l k v) k = some v := by
  induction l with
  | nil => simp [ainsert, alookup]
  | cons p rest ih =>
    by_cases h : p.1 = k
    · simp [ainsert, h, alookup]
    · simp [ainsert, h, alookup, ih]

/-- Lookup after insert at another key. -/
theorem alookup_ainsert_ne {α : Type} (l : List (String × α)) (k k' : String) (v : α)
    (h : k' ≠ k) : alookup (ainsert l k v) k' = alookup l k' := by
  induction l with
  | nil => simp [ainsert, alookup, Ne.symm h]
  | cons p rest ih =>
    by_cases hp : p.1 = k
    · simp [ainsert, hp, alookup, Ne.symm h]
    · by_cases hp' : p.1 = k'
      · simp [ainsert, hp, alookup, hp', h]
      · simp [ainsert, hp, alookup, hp', ih]

/-- Lookup after erase at the erased key. -/
theorem alookup_aerase_self {α : Type} (l : List (String × α)) (k : String) :
    alookup (aerase l k) k = none := by
  induction l with
  | nil => simp [aerase, alookup]
  | cons p rest ih =>
    by_cases h : p.1 = k
    · simpa [aerase, List.filter_cons, h] using ih
    · simpa [aerase, List.filter_cons, h, alookup] using ih

/-- Lookup after erase at another key. -/
theorem alookup_aerase_ne {α : Type} (l : List (String × α)) (k k' : String)
    (h : k' ≠ k) : alookup (aerase l k) k' = alookup l k' := by
  induction l with
  | nil => simp [aerase, alookup]
  | cons p rest ih =>
    by_cases hp : p.1 = k
    · simpa [aerase, List.filter_cons, hp, alookup, Ne.symm h] using ih
    · by_cases hp' : p.1 = k'
      · simp [aerase, List.filter_cons, hp, alookup, hp', h]
      · simpa [aerase, List.filter_cons, hp, alookup, hp'] using ih

/-- Erase keeps an absent key absent. -/
theorem alookup_aerase_none {α : Type} (l : List (String × α)) (k k' : String)
    (h : alookup l k' = none) : alookup (aerase l k) k' = none := by
  by_cases hk : k' = k
  · subst hk; exact alookup_aerase_self l k'
  · rw [alookup_aerase_ne l k k' hk]; exact h

/-- A successful lookup is a membership. -/
theorem alookup_mem {α : Type} (l : List (String × α)) (k : String) (v : α)
    (h : alookup l k = some v) : (k, v) ∈ l := by
  induction l with
  | nil => simp [alookup] at h
  | cons p rest ih =>
    obtain ⟨a, bb⟩ := p
    by_cases hp : a = k
    · have h2 : bb = v := by simpa [alookup, hp] using h
      subst h2
      subst hp
      exact List.mem_cons_self _ _
    · simp [alookup, hp] at h
      exact List.mem_cons_of_mem _ (ih h)

/-- Chunk handler on an existing session with well-formed basics
reduces to the per-session check block. -/
theorem chunkHandler_existing_eq
    (st : ServerState) (b : ChunkBody) (token lbl : String) (now : Nat)
    (sess : Session) (size idx : Nat)
    (hs : alookup st.inFlight b.uploadId = some sess)
    (hu : b.uploadId ≠ "")
    (hc : b.chunk = some size)
    (hi : b.index = some (idx : Int))
    (hslot : 1 ≤ b.slot ∧ b.slot ≤ 6) :
    chunkHandler st b token lbl now = chunkChecks st b token sess size idx now := by
  have hnotbad : ¬ (b.uploadId = "" ∨ (idx : Int) < 0) := by
    rintro (hh | hh)
    · exact hu hh
    · exact absurd hh (not_lt.mpr (Int.natCast_nonneg idx))
  simp only [chunkHandler, hc, hi]
  rw [if_neg hnotbad, if_neg (not_not_intro hslot), hs, Int.toNat_natCast]

/-- Chunk handler with no session for the uploadId and well-formed
basics reduces to session creation followed by the check block. -/
theorem chunkHandler_fresh_eq
    (st : ServerState) (b : ChunkBody) (token lbl : String) (now : Nat)
    (size idx : Nat)
    (hs : alookup st.inFlight b.uploadId = none)
    (hu : b.uploadId ≠ "")
    (hc : b.chunk = some size)
    (hi : b.index = some (idx : Int))
    (hslot : 1 ≤ b.slot ∧ b.slot ≤ 6) :
    chunkHandler st b token lbl now =
      chunkChecks (createSessionState st b token lbl now).2 b token
        (createSessionState st b token lbl now).1 size idx now := by
  have hnotbad : ¬ (b.uploadId = "" ∨ (idx : Int) < 0) := by
    rintro (hh | hh)
    · exact hu hh
    · exact absurd hh (not_lt.mpr (Int.natCast_nonneg idx))
  simp only [chunkHandler, hc, hi]
  rw [if_neg hnotbad, if_neg (not_not_intro hslot), hs, Int.toNat_natCast]

/-- Check block on a fully valid chunk: accepted, write performed. -/
theorem chunkChecks_accept
    (st : ServerState) (b : ChunkBody) (token : String) (sess : Session)
    (size idx now : Nat)
    (hslotm : b.slot = sess.slot)
    (hidx : idx = sess.nextIndex)
    (hown : sess.ownerTok = token)
    (hsize : sess.bytes + size ≤ PER_UPLOAD_MAX_BYTES) :
    chunkChecks st b token sess size idx now =
      (.ok (sess.nextIndex + 1), writeChunkState st b.uploadId sess size now) := by
  rw [chunkChecks, if_neg (not_not_intro hslotm), if_neg (not_not_intro hidx),
    if_neg (not_not_intro hown), if_neg (not_lt.mpr hsize)]

/-- Check block with a mismatched index on a matching slot: ordering
conflict carrying the expected index, state untouched. -/
theorem chunkChecks_outOfOrder
    (st : ServerState) (b : ChunkBody) (token : String) (sess : Session)
    (size idx now : Nat)
    (hslotm : b.slot = sess.slot)
    (hidx : idx ≠ sess.nextIndex) :
    chunkChecks st b token sess size idx now = (.outOfOrder sess.nextIndex, st) := by
  rw [chunkChecks, if_neg (not_not_intro hslotm), if_pos hidx]

/-- Check block with a mismatched slot: conflict, state untouched. -/
theorem chunkChecks_slotMismatch
    (st : ServerState) (b : ChunkBody) (token : String) (sess : Session)
    (size idx now : Nat)
    (hslotm : b.slot ≠ sess.slot) :
    chunkChecks st b token sess size idx now = (.slotMismatch, st) := by
  rw [chunkChecks, if_pos hslotm]

/-- Check block with matching slot and index but a foreign token:
authorization error, state untouched. -/
theorem chunkChecks_notOwner
    (st : ServerState) (b : ChunkBody) (token : String) (sess : Session)
    (size idx now : Nat)
    (hslotm : b.slot = sess.slot)
    (hidx : idx = sess.nextIndex)
    (hown : sess.ownerTok ≠ token) :
    chunkChecks st b token sess size idx now = (.notOwner, st) := by
  rw [chunkChecks, if_neg (not_not_intro hslotm), if_neg (not_not_intro hidx), if_pos hown]

/-- The second state component of every rejecting check-block run is the
input state, and the only accepting result is ok with the write. -/
theorem chunkChecks_cases
    (st : ServerState) (b : ChunkBody) (token : String) (sess : Session)
    (size idx now : Nat) :
    chunkChecks st b token sess size idx now =
      (.ok (sess.nextIndex + 1), writeChunkState st b.uploadId sess size now) ∨
    ((chunkChecks st b token sess size idx now).2 = st ∧
      ∀ n, (chunkChecks st b token sess size idx now).1 ≠ ChunkRes.ok n) := by
  rw [chunkChecks]
  by_cases h1 : b.slot ≠ sess.slot
  · simp [h1]
  · by_cases h2 : idx ≠ sess.nextIndex
    · simp [h1, h2]
    · by_cases h3 : sess.ownerTok ≠ token
      · simp [h1, h2, h3]
      · by_cases h4 : sess.bytes + size > PER_UPLOAD_MAX_BYTES
        · simp [h1, h2, h3, h4]
        · simp [h1, h2, h3, h4]

/-- Filtering keeps an absent key absent. -/
theorem alookup_filter_keep_none {α : Type} (l : List (String × α)) (k : String)
    (pred : String × α → Bool) (h : alookup l k = none) :
    alookup (l.filter pred) k = none := by
  induction l with
  | nil => simp [alookup]
  | cons p rest ih =>
    by_cases hp : p.1 = k
    · simp [alookup, hp] at h
    · simp only [alookup, hp, if_false, ite_false] at h
      by_cases hpred : pred p = true
      · simp [List.filter_cons, hpred, alookup, hp]
        exact ih h
      · simp [List.filter_cons, hpred]
        exact ih h

/-- A key all of whose bindings fail the filter is gone afterwards. -/
theorem alookup_filter_none {α : Type} (l : List (String × α)) (k : String)
    (pred : String × α → Bool)
    (h : ∀ v, (k, v) ∈ l → pred (k, v) = false) :
    alookup (l.filter pred) k = none := by
  induction l with
  | nil => simp [alookup]
  | cons p rest ih =>
    obtain ⟨a, bb⟩ := p
    by_cases hp : a = k
    · subst hp
      have hf : pred (a, bb) = false := h bb (List.mem_cons_self _ _)
      simp [List.filter_cons, hf]
      exact ih (fun v hv => h v (List.mem_cons_of_mem _ hv))
    · by_cases hpred : pred (a, bb) = true
      · simp [List.filter_cons, hpred, alookup, hp]
        exact ih (fun v hv => h v (List.mem_cons_of_mem _ hv))
      · simp [List.filter_cons, hpred]
        exact ih (fun v hv => h v (List.mem_cons_of_mem _ hv))

/-- First component of session creation is the fresh session. -/
theorem createSessionState_fst (st : ServerState) (b : ChunkBody) (token lbl : String)
    (now : Nat) :
    (createSessionState st b token lbl now).1 = freshSession b token lbl now := rfl

/-- The created session is stored under the uploadId. -/
theorem createSessionState_inFlight (st : ServerState) (b : ChunkBody) (token lbl : String)
    (now : Nat) :
    alookup (createSessionState st b token lbl now).2.inFlight b.uploadId =
      some (freshSession b token lbl now) := by
  simp only [createSessionState]
  exact alookup_ainsert_self _ _ _

/-- Session creation over an absent staging file creates it empty. -/
theorem createSessionState_files (st : ServerState) (b : ChunkBody) (token lbl : String)
    (now : Nat) (hf : alookup st.files (freshSession b token lbl now).filepath = none) :
    (createSessionState st b token lbl now).2.files =
      ainsert st.files (freshSession b token lbl now).filepath [] := by
  simp only [createSessionState, hf]

/-- An absent inFlight key stays absent through the reaper first pass. -/
theorem reapFold_none_inFlight (entries : List (String × Session)) (acc : ServerState)
    (now : Nat) (uid : String) (h : alookup acc.inFlight uid = none) :
    alookup (entries.foldl (reapOne now) acc).inFlight uid = none := by
  induction entries generalizing acc with
  | nil => exact h
  | cons p rest ih =>
    apply ih
    simp only [reapOne]
    by_cases hc : now - p.2.lastTouched > INFLIGHT_TTL_MS
    · rw [if_pos hc]
      exact alookup_aerase_none _ _ _ h
    · rw [if_neg hc]
      exact h

/-- An absent file stays absent through the reaper first pass. -/
theorem reapFold_none_files (entries : List (String × Session)) (acc : ServerState)
    (now : Nat) (fp : String) (h : alookup acc.files fp = none) :
    alookup (entries.foldl (reapOne now) acc).files fp = none := by
  induction entries generalizing acc with
  | nil => exact h
  | cons p rest ih =>
    apply ih
    simp only [reapOne]
    by_cases hc : now - p.2.lastTouched > INFLIGHT_TTL_MS
    · rw [if_pos hc]
      exact alookup_aerase_none _ _ _ h
    · rw [if_neg hc]
      exact h

/-- An absent marker stays absent through the reaper first pass. -/
theorem reapFold_none_markers (entries : List (String × Session)) (acc : ServerState)
    (now : Nat) (uid : String) (h : alookup acc.markers uid = none) :
    alookup (entries.foldl (reapOne now) acc).markers uid = none := by
  induction entries generalizing acc with
  | nil => exact h
  | cons p rest ih =>
    apply ih
    simp only [reapOne]
    by_cases hc : now - p.2.lastTouched > INFLIGHT_TTL_MS
    · rw [if_pos hc]
      exact alookup_aerase_none _ _ _ h
    · rw [if_neg hc]
      exact h

/-- A stale entry of the processed list is fully torn down by the
reaper first pass: session gone, staging file gone, marker gone. -/
theorem reapFold_removes (entries : List (String × Session)) (acc : ServerState)
    (now : Nat) (uid : String) (sess : Session)
    (hm : (uid, sess) ∈ entries)
    (hstale : now - sess.lastTouched > INFLIGHT_TTL_MS) :
    alookup (entries.foldl (reapOne now) acc).inFlight uid = none ∧
    alookup (entries.foldl (reapOne now) acc).files sess.filepath = none ∧
    alookup (entries.foldl (reapOne now) acc).markers uid = none := by
  induction entries generalizing acc with
  | nil => cases hm
  | cons p rest ih =>
    rcases List.mem_cons.mp hm with heq | hmem
    · subst heq
      simp only [List.foldl_cons]
      refine ⟨reapFold_none_inFlight _ _ _ _ ?_, reapFold_none_files _ _ _ _ ?_,
        reapFold_none_markers _ _ _ _ ?_⟩
      · simp only [reapOne, if_pos hstale]
        exact alookup_aerase_self _ _
      · simp only [reapOne, if_pos hstale]
        exact alookup_aerase_self _ _
      · simp only [reapOne, if_pos hstale]
        exact alookup_aerase_self _ _
    · exact ih _ hmem

/-- Claim C1: for every chunk request addressed to an existing session
(same uploadId, matching slot and owner, within the byte ceiling), the
chunk is accepted iff its declared index equals the session current
nextIndex; on acceptance nextIndex increases by exactly 1 and the
response carries the new value; on a mismatched index the response is
the 409 out-of-order error carrying the expected index and the session
is left unchanged. -/
theorem chunk_accept_iff_expected_index
    (st : ServerState) (b : ChunkBody) (token lbl : String) (now : Nat)
    (sess : Session) (size idx : Nat)
    (hs : alookup st.inFlight b.uploadId = some sess)
    (hu : b.uploadId ≠ "")
    (hc : b.chunk = some size)
    (hi : b.index = some (idx : Int))
    (hslot : 1 ≤ b.slot ∧ b.slot ≤ 6)
    (hslotm : b.slot = sess.slot)
    (hown : sess.ownerTok = token)
    (hsize : sess.bytes + size ≤ PER_UPLOAD_MAX_BYTES) :
    ((chunkHandler st b token lbl now).1 = ChunkRes.ok (sess.nextIndex + 1)
        ↔ idx = sess.nextIndex) ∧
    (idx = sess.nextIndex →
      chunkHandler st b token lbl now =
        (ChunkRes.ok (sess.nextIndex + 1), writeChunkState st b.uploadId sess size now) ∧
      alookup (chunkHandler st b token lbl now).2.inFlight b.uploadId =
        some { sess with
                 nextIndex := sess.nextIndex + 1,
                 bytes := sess.bytes + size,
                 lastTouched := now }) ∧
    (idx ≠ sess.nextIndex →
      chunkHandler st b token lbl now = (ChunkRes.outOfOrder sess.nextIndex, st) ∧
      (ChunkRes.outOfOrder sess.nextIndex).status = 409) := by
  rw [chunkHandler_existing_eq st b token lbl now sess size idx hs hu hc hi hslot]
  by_cases hidx : idx = sess.nextIndex
  · rw [chunkChecks_accept st b token sess size idx now hslotm hidx hown hsize]
    refine ⟨by simp [hidx], fun _ => ⟨rfl, ?_⟩, fun hne => absurd hidx hne⟩
    simp only [writeChunkState]
    exact alookup_ainsert_self _ _ _
  · rw [chunkChecks_outOfOrder st b token sess size idx now hslotm hidx]
    exact ⟨by simp [hidx], fun heq => absurd heq hidx, fun _ => ⟨rfl, rfl⟩⟩

/-- Witness for C1 at a concrete state: the in-order chunk is accepted
with nextIndex 1 and the out-of-order one is answered with expected 0. -/
theorem chunk_accept_iff_expected_index_witness :
    (chunkHandler exState exBody "tok" "Tester1" 7).1 = ChunkRes.ok 1 ∧
    (chunkHandler exState exBodyWrongIdx "tok" "Tester1" 7).1 = ChunkRes.outOfOrder 0 := by
  constructor
  · have h := chunk_accept_iff_expected_index exState exBody "tok" "Tester1" 7 exSess 5 0
      (by decide) (by decide) (by decide) (by decide) (by decide) (by decide) (by decide)
      (by decide)
    exact h.1.mpr (by decide)
  · have h := chunk_accept_iff_expected_index exState exBodyWrongIdx "tok" "Tester1" 7
      exSess 5 5 (by decide) (by decide) (by decide) (by decide) (by decide) (by decide)
      (by decide) (by decide)
    rw [(h.2.2 (by decide)).1]
    decide

/-- Claim C10: on the chunk endpoint the ownership check runs only
after the slot and index checks, so a valid token holder who is not the
session owner, declaring a wrong index on the right slot, receives the
409 ordering conflict carrying the session current nextIndex instead of
a 403 authorization error. -/
theorem nonowner_wrong_index_gets_ordering_conflict
    (st : ServerState) (b : ChunkBody) (token lbl : String) (now : Nat)
    (sess : Session) (size idx : Nat)
    (hs : alookup st.inFlight b.uploadId = some sess)
    (hu : b.uploadId ≠ "")
    (hc : b.chunk = some size)
    (hi : b.index = some (idx : Int))
    (hslot : 1 ≤ b.slot ∧ b.slot ≤ 6)
    (hslotm : b.slot = sess.slot)
    (hidx : idx ≠ sess.nextIndex)
    (_hown : sess.ownerTok ≠ token) :
    chunkHandler st b token lbl now = (ChunkRes.outOfOrder sess.nextIndex, st) ∧
    (ChunkRes.outOfOrder sess.nextIndex).status = 409 := by
  rw [chunkHandler_existing_eq st b token lbl now sess size idx hs hu hc hi hslot,
    chunkChecks_outOfOrder st b token sess size idx now hslotm hidx]
  exact ⟨rfl, rfl⟩

/-- Witness for C10: a foreign token with index 5 on the slot-1 session
whose nextIndex is 0 gets the ordering conflict, not the 403. -/
theorem nonowner_wrong_index_gets_ordering_conflict_witness :
    chunkHandler exState exBodyWrongIdx "other" "Tester2" 7 =
      (ChunkRes.outOfOrder 0, exState) := by
  have h := nonowner_wrong_index_gets_ordering_conflict exState exBodyWrongIdx "other"
    "Tester2" 7 exSess 5 5 (by decide) (by decide) (by decide) (by decide) (by decide)
    (by decide) (by decide) (by decide)
  exact h.1

/-- Claim C3 (code bug): the chunk handler holds no per-upload lock
across the awaited write, so under the schedule check-A, check-B,
resolve-A, resolve-B two concurrently-arriving chunks that both declare
index 0 are BOTH accepted: both buffers are appended (double write) and
nextIndex ends at 2 although index 1 was never received. -/
theorem concurrent_same_index_double_accept :
    (raceRun exRaceReq exRaceReq 7 exRaceInit [true, false, true, false]).pcA =
      Phase.done (ChunkRes.ok 1) ∧
    (raceRun exRaceReq exRaceReq 7 exRaceInit [true, false, true, false]).pcB =
      Phase.done (ChunkRes.ok 2) ∧
    (raceRun exRaceReq exRaceReq 7 exRaceInit [true, false, true, false]).content =
      [5, 5] ∧
    (raceRun exRaceReq exRaceReq 7 exRaceInit [true, false, true, false]).sess.nextIndex
      = 2 := by
  decide

/-- Claim C4 (code bug): a first chunk declaring index 1 is rejected
with the 409 ordering conflict, yet it creates the session and the
empty staging file; a following finish call then succeeds and renames a
zero-byte artifact (content sum 0) into the artifact namespace. -/
theorem finish_zero_chunks_creates_empty_artifact :
    (chunkHandler exEmptyState exBodyIdx1 "tok" "Tester1" 0).1 = ChunkRes.outOfOrder 0 ∧
    (finishHandler (chunkHandler exEmptyState exBodyIdx1 "tok" "Tester1" 0).2
        (some "u") 1 "tok" "Tester1" "ts" noFault).1 =
      FinishRes.okMem "u" "/uploads/Tester1Oppgave1-ts.webm" ∧
    alookup (finishHandler (chunkHandler exEmptyState exBodyIdx1 "tok" "Tester1" 0).2
        (some "u") 1 "tok" "Tester1" "ts" noFault).2.files "Tester1Oppgave1-ts.webm" =
      some ([] : List Nat) := by
  decide

/-- Counterexample for C5: a finish request declaring slot 3 against a
session whose targetSlot is 1, from the correct owner, is NOT rejected:
it succeeds with status 200 and uses the declared slot in the artifact
name.  The finish handler never compares the declared slot with the
session slot. -/
theorem finish_slot_mismatch_not_rejected :
    (3 : Int) ≠ exSess.slot ∧
    (finishHandler exState (some "u") 3 "tok" "Tester1" "ts" noFault).1 =
      FinishRes.okMem "u" "/uploads/Tester1Oppgave3-ts.webm" ∧
    ((finishHandler exState (some "u") 3 "tok" "Tester1" "ts" noFault).1).status
      = 200 := by
  decide

/-- Claim C5 (amended): on chunk requests a mismatched slot or identity
is rejected without mutating anything; on finish a mismatched identity
is rejected without mutation, but the declared slot is never compared
with the session targetSlot: finish proceeds for any in-range slot and
puts the declared slot into the artifact name. -/
theorem slot_owner_mismatch_rejection :
    (∀ (st : ServerState) (b : ChunkBody) (token lbl : String) (now : Nat)
        (sess : Session) (size idx : Nat),
      alookup st.inFlight b.uploadId = some sess →
      b.uploadId ≠ "" → b.chunk = some size → b.index = some (idx : Int) →
      (1 ≤ b.slot ∧ b.slot ≤ 6) →
      (b.slot ≠ sess.slot ∨ sess.ownerTok ≠ token) →
      (chunkHandler st b token lbl now).2 = st ∧
      ∀ n, (chunkHandler st b token lbl now).1 ≠ ChunkRes.ok n) ∧
    (∀ (st : ServerState) (uid : String) (slot : Int) (token lbl ts : String)
        (fault : FsFault) (sess : Session),
      alookup st.inFlight uid = some sess →
      uid ≠ "" → (1 ≤ slot ∧ slot ≤ 6) →
      sess.ownerTok ≠ token →
      finishHandler st (some uid) slot token lbl ts fault = (FinishRes.notOwner, st)) ∧
    (∀ (st : ServerState) (uid : String) (slot : Int) (token lbl ts : String)
        (sess : Session),
      alookup st.inFlight uid = some sess →
      uid ≠ "" → (1 ≤ slot ∧ slot ≤ 6) →
      sess.ownerTok = token →
      (finishHandler st (some uid) slot token lbl ts noFault).1 =
        FinishRes.okMem uid ("/uploads/" ++ finalNameOf sess.userLabel slot ts sess.ext)) := by
  refine ⟨?_, ?_, ?_⟩
  · intro st b token lbl now sess size idx hs hu hc hi hslot hmis
    rw [chunkHandler_existing_eq st b token lbl now sess size idx hs hu hc hi hslot]
    rcases hmis with hmis | hmis
    · rw [chunkChecks_slotMismatch st b token sess size idx now hmis]
      exact ⟨rfl, by simp⟩
    · by_cases hsl : b.slot = sess.slot
      · by_cases hidx : idx = sess.nextIndex
        · rw [chunkChecks_notOwner st b token sess size idx now hsl hidx hmis]
          exact ⟨rfl, by simp⟩
        · rw [chunkChecks_outOfOrder st b token sess size idx now hsl hidx]
          exact ⟨rfl, by simp⟩
      · rw [chunkChecks_slotMismatch st b token sess size idx now hsl]
        exact ⟨rfl, by simp⟩
  · intro st uid slot token lbl ts fault sess hs hu hslot hown
    simp [finishHandler, hu, hslot.1, hslot.2, hs, hown]
  · intro st uid slot token lbl ts sess hs hu hslot hown
    simp [finishHandler, hu, hslot.1, hslot.2, hs, hown, noFault]

/-- Witness for the amended C5 at concrete inputs: a slot-2 chunk on
the slot-1 session is rejected without mutation, a finish from a
foreign token is answered notOwner, and an owner finish with a slot
differing from the session slot succeeds. -/
theorem slot_owner_mismatch_rejection_witness :
    ((chunkHandler exState exBodySlot2 "tok" "Tester1" 7).2 = exState ∧
      (chunkHandler exState exBodySlot2 "tok" "Tester1" 7).1 ≠ ChunkRes.ok 1) ∧
    finishHandler exState (some "u") 1 "bad" "Tester2" "ts" noFault =
      (FinishRes.notOwner, exState) ∧
    (finishHandler exState (some "u") 3 "tok" "Tester1" "ts" noFault).1 =
      FinishRes.okMem "u" "/uploads/Tester1Oppgave3-ts.webm" := by
  obtain ⟨h1, h2, h3⟩ := slot_owner_mismatch_rejection
  refine ⟨?_, ?_, ?_⟩
  · have h := h1 exState exBodySlot2 "tok" "Tester1" 7 exSess 5 0 (by decide) (by decide)
      (by decide) (by decide) (by decide) (Or.inl (by decide))
    exact ⟨h.1, h.2 1⟩
  · exact h2 exState "u" 1 "bad" "Tester2" "ts" noFault exSess (by decide) (by decide)
      (by decide) (by decide)
  · have h := h3 exState "u" 3 "tok" "Tester1" "ts" exSess (by decide) (by decide)
      (by decide) (by decide)
    exact h.trans (by decide)

/-- Claim C2: a finish request whose uploadId has no in-memory session
goes through the marker fallback: absent marker answers 404; a stored
token differing from the requester token answers 403; otherwise the
staging directory is probed for uploadId plus one of .webm, .mp4, .mov,
a hit renames the file to the final artifact name, deletes the marker
and answers with the id and the /uploads URL, and a miss answers 404. -/
theorem finish_fallback_marker_and_probe
    (st : ServerState) (uid : String) (slot : Int) (token lbl ts : String)
    (hn : alookup st.inFlight uid = none)
    (hu : uid ≠ "") (hslot : 1 ≤ slot ∧ slot ≤ 6) :
    (alookup st.markers uid = none →
      finishHandler st (some uid) slot token lbl ts noFault =
        (FinishRes.unknownUpload, st)) ∧
    (∀ m, alookup st.markers uid = some m → jsTrim m.tok ≠ token →
      finishHandler st (some uid) slot token lbl ts noFault = (FinishRes.notOwner, st)) ∧
    (∀ m, alookup st.markers uid = some m → jsTrim m.tok = token →
      probeExt st.files uid = none →
      finishHandler st (some uid) slot token lbl ts noFault =
        (FinishRes.unknownUpload, st)) ∧
    (∀ m e, alookup st.markers uid = some m → jsTrim m.tok = token →
      probeExt st.files uid = some e →
      finishHandler st (some uid) slot token lbl ts noFault =
        (FinishRes.okFallback uid (finalNameOf lbl slot ts e)
          ("/uploads/" ++ finalNameOf lbl slot ts e),
         finalizeFallbackState st uid e (finalNameOf lbl slot ts e)) ∧
      alookup (finalizeFallbackState st uid e (finalNameOf lbl slot ts e)).markers uid
        = none) := by
  refine ⟨?_, ?_, ?_, ?_⟩
  · intro hm
    simp [finishHandler, hu, hslot.1, hslot.2, hn, hm]
  · intro m hm hne
    simp [finishHandler, hu, hslot.1, hslot.2, hn, hm, hne]
  · intro m hm heq hp
    simp [finishHandler, hu, hslot.1, hslot.2, hn, hm, heq, hp]
  · intro m e hm heq hp
    constructor
    · simp [finishHandler, hu, hslot.1, hslot.2, hn, hm, heq, hp, noFault]
    · simp only [finalizeFallbackState]
      exact alookup_aerase_self _ _

/-- Witness for C2 on the post-restart state: unknown id answers 404, a
foreign token answers 403, the owner token finds u.webm and succeeds
with the marker deleted. -/
theorem finish_fallback_marker_and_probe_witness :
    (finishHandler exRestartState (some "v") 2 "tok" "Tester1" "ts" noFault).1 =
      FinishRes.unknownUpload ∧
    (finishHandler exRestartState (some "u") 2 "bad" "Tester2" "ts" noFault).1 =
      FinishRes.notOwner ∧
    (finishHandler exRestartState (some "u") 2 "tok" "Tester1" "ts" noFault).1 =
      FinishRes.okFallback "u" "Tester1Oppgave2-ts.webm"
        "/uploads/Tester1Oppgave2-ts.webm" ∧
    alookup (finishHandler exRestartState (some "u") 2 "tok" "Tester1" "ts"
      noFault).2.markers "u" = none := by
  refine ⟨?_, ?_, ?_, ?_⟩
  · have h := finish_fallback_marker_and_probe exRestartState "v" 2 "tok" "Tester1" "ts"
      (by decide) (by decide) (by decide)
    rw [h.1 (by decide)]
  · have h := finish_fallback_marker_and_probe exRestartState "u" 2 "bad" "Tester2" "ts"
      (by decide) (by decide) (by decide)
    rw [h.2.1 { tok := "tok", mtime := 0 } (by decide) (by decide)]
  · have h := finish_fallback_marker_and_probe exRestartState "u" 2 "tok" "Tester1" "ts"
      (by decide) (by decide) (by decide)
    rw [(h.2.2.2 { tok := "tok", mtime := 0 } ".webm" (by decide) (by decide)
      (by decide)).1]
    decide
  · have h := finish_fallback_marker_and_probe exRestartState "u" 2 "tok" "Tester1" "ts"
      (by decide) (by decide) (by decide)
    rw [(h.2.2.2 { tok := "tok", mtime := 0 } ".webm" (by decide) (by decide)
      (by decide)).1]
    decide

/-- Claim C6: when stream end or rename fails during finish, the
response is the 500 finalize failure and the whole state is preserved:
staging file, marker and session all stay, and a retried finish on the
same state with no fault succeeds. -/
theorem finalize_failure_preserves_staging_and_marker :
    (∀ (st : ServerState) (uid : String) (slot : Int) (token lbl ts : String)
        (fault : FsFault) (sess : Session),
      alookup st.inFlight uid = some sess →
      uid ≠ "" → (1 ≤ slot ∧ slot ≤ 6) →
      sess.ownerTok = token →
      (fault.endFails = true ∨ fault.renameFails = true) →
      finishHandler st (some uid) slot token lbl ts fault =
        (FinishRes.finalizeFailed, st) ∧
      FinishRes.finalizeFailed.status = 500) ∧
    (∀ (st : ServerState) (uid : String) (slot : Int) (token lbl ts : String)
        (fault : FsFault) (m : Marker) (e : String),
      alookup st.inFlight uid = none →
      uid ≠ "" → (1 ≤ slot ∧ slot ≤ 6) →
      alookup st.markers uid = some m → jsTrim m.tok = token →
      probeExt st.files uid = some e →
      fault.renameFails = true →
      finishHandler st (some uid) slot token lbl ts fault =
        (FinishRes.finalizeFailed, st)) ∧
    (∀ (st : ServerState) (uid : String) (slot : Int) (token lbl ts : String)
        (sess : Session),
      alookup st.inFlight uid = some sess →
      uid ≠ "" → (1 ≤ slot ∧ slot ≤ 6) →
      sess.ownerTok = token →
      (finishHandler st (some uid) slot token lbl ts noFault).1 =
        FinishRes.okMem uid ("/uploads/" ++ finalNameOf sess.userLabel slot ts sess.ext)) := by
  refine ⟨?_, ?_, ?_⟩
  · intro st uid slot token lbl ts fault sess hs hu hslot hown hf
    refine ⟨?_, rfl⟩
    rcases hf with hf | hf
    · simp [finishHandler, hu, hslot.1, hslot.2, hs, hown, hf]
    · by_cases he : fault.endFails = true
      · simp [finishHandler, hu, hslot.1, hslot.2, hs, hown, he]
      · simp [finishHandler, hu, hslot.1, hslot.2, hs, hown, he, hf]
  · intro st uid slot token lbl ts fault m e hn hu hslot hm heq hp hf
    simp [finishHandler, hu, hslot.1, hslot.2, hn, hm, heq, hp, hf]
  · intro st uid slot token lbl ts sess hs hu hslot hown
    simp [finishHandler, hu, hslot.1, hslot.2, hs, hown, noFault]

/-- Witness for C6: a failing stream end on the concrete state answers
500 leaving the state untouched, a failing rename on the post-restart
state does the same, and the retried fault-free finish succeeds. -/
theorem finalize_failure_preserves_staging_and_marker_witness :
    finishHandler exState (some "u") 1 "tok" "Tester1" "ts"
        { endFails := true, renameFails := false } =
      (FinishRes.finalizeFailed, exState) ∧
    finishHandler exRestartState (some "u") 2 "tok" "Tester1" "ts"
        { endFails := false, renameFails := true } =
      (FinishRes.finalizeFailed, exRestartState) ∧
    (finishHandler exState (some "u") 1 "tok" "Tester1" "ts" noFault).1 =
      FinishRes.okMem "u" "/uploads/Tester1Oppgave1-ts.webm" := by
  obtain ⟨h1, h2, h3⟩ := finalize_failure_preserves_staging_and_marker
  refine ⟨?_, ?_, ?_⟩
  · exact (h1 exState "u" 1 "tok" "Tester1" "ts" { endFails := true, renameFails := false }
      exSess (by decide) (by decide) (by decide) (by decide) (Or.inl rfl)).1
  · exact h2 exRestartState "u" 2 "tok" "Tester1" "ts"
      { endFails := false, renameFails := true } { tok := "tok", mtime := 0 } ".webm"
      (by decide) (by decide) (by decide) (by decide) (by decide) (by decide) rfl
  · have h := h3 exState "u" 1 "tok" "Tester1" "ts" exSess (by decide) (by decide)
      (by decide) (by decide)
    exact h.trans (by decide)

/-- Counterexample for C7: the claim that a token older than the token
TTL is always rejected is false: a token issued at time 0 and presented
at time 7200001 (age beyond TOKEN_TTL_MS, sweep not yet run) passes the
guard, and the full chunk endpoint accepts the chunk. -/
theorem stale_token_accepted_between_sweeps :
    0 + TOKEN_TTL_MS < 7200001 ∧
    ((requireUnlock exStaleState.activeTokens (some "t") 7200001).1).isSome = true ∧
    (chunkEndpoint exStaleState (some "t") exBody 7200001).1 = ChunkRes.ok 1 := by
  decide

/-- Claim C7 (amended): a missing or unknown token is answered 403 by
the guard with no state created or mutated; expiry is enforced only by
the periodic sweep, after which any token whose bindings were all older
than the TTL cutoff is unknown and therefore rejected.  (Between sweeps
an over-TTL token is still accepted, see the counterexample.) -/
theorem auth_guard_rejects_unknown_and_swept_tokens :
    (∀ (st : ServerState) (b : ChunkBody) (now : Nat),
      chunkEndpoint st none b now = (ChunkRes.locked, st) ∧
      ChunkRes.locked.status = 403) ∧
    (∀ (st : ServerState) (b : ChunkBody) (t : String) (now : Nat),
      alookup st.activeTokens t = none →
      chunkEndpoint st (some t) b now = (ChunkRes.locked, st)) ∧
    (∀ (toks : List (String × TokenSess)) (t : String) (now later : Nat),
      (∀ s, (t, s) ∈ toks → s.issuedAt < now - TOKEN_TTL_MS) →
      (requireUnlock (tokenSweep toks now) (some t) later).1 = none) := by
  refine ⟨?_, ?_, ?_⟩
  · intro st b now
    exact ⟨rfl, rfl⟩
  · intro st b t now hu
    simp [chunkEndpoint, requireUnlock, hu]
  · intro toks t now later h
    have hnone : alookup (tokenSweep toks now) t = none := by
      apply alookup_filter_none
      intro v hv
      simp [h v hv]
    simp [requireUnlock, hnone]

/-- Witness for the amended C7: the guard rejects a missing header and
an unknown token without touching the state, and after a sweep at time
7300000 the token issued at 0 is rejected. -/
theorem auth_guard_rejects_unknown_and_swept_tokens_witness :
    chunkEndpoint exStaleState none exBody 7 = (ChunkRes.locked, exStaleState) ∧
    chunkEndpoint exStaleState (some "zz") exBody 7 = (ChunkRes.locked, exStaleState) ∧
    (requireUnlock (tokenSweep exStaleState.activeTokens 7300000) (some "t") 7300001).1
      = none := by
  obtain ⟨h1, h2, h3⟩ := auth_guard_rejects_unknown_and_swept_tokens
  refine ⟨(h1 exStaleState exBody 7).1, h2 exStaleState exBody "zz" 7 (by decide), ?_⟩
  apply h3
  intro s hs
  have hm : ("t", s) = ("t", ({ userLabel := "Tester1", issuedAt := 0 } : TokenSess)) :=
    List.mem_singleton.mp hs
  have hseq : s = { userLabel := "Tester1", issuedAt := 0 } := congrArg Prod.snd hm
  subst hseq
  decide

/-- Counterexample for C8 as stated: after a process restart the
staging file u.webm (5 bytes as sizes 2 and 3) is still on disk with
its marker while no in-memory session exists; a new index-0 chunk of 5
bytes for the same uploadId is accepted, but createWriteStream with the
append flag appends to the leftover file, so immediately after the
accepted write the staging length is 10 while bytesWritten is 5. -/
theorem staging_length_exceeds_bytes_after_restart :
    (chunkHandler exRestartState exBody "tok" "Tester1" 9).1 = ChunkRes.ok 1 ∧
    alookup (chunkHandler exRestartState exBody "tok" "Tester1" 9).2.inFlight "u" =
      some { filepath := "u.webm", ext := ".webm", nextIndex := 1,
             userLabel := "Tester1", ownerTok := "tok", slot := 1, lastTouched := 9,
             bytes := 5 } ∧
    alookup (chunkHandler exRestartState exBody "tok" "Tester1" 9).2.files "u.webm" =
      some [2, 3, 5] ∧
    ([2, 3, 5] : List Nat).sum ≠ 5 := by
  decide

/-- Claim C8 (amended): the staging-file byte length equals the session
bytesWritten counter after every accepted chunk write, provided the
equality held before the write (existing session) or the accepted chunk
creates the session over an absent staging file; a session created over
a leftover staging file (restart with a reused uploadId) keeps the old
bytes and breaks the equality, see the counterexample. -/
theorem staging_length_matches_bytes_written :
    (∀ (st : ServerState) (b : ChunkBody) (token lbl : String) (now : Nat)
        (sess : Session) (size idx : Nat) (c : List Nat) (n : Nat),
      alookup st.inFlight b.uploadId = some sess →
      b.uploadId ≠ "" → b.chunk = some size → b.index = some (idx : Int) →
      (1 ≤ b.slot ∧ b.slot ≤ 6) →
      alookup st.files sess.filepath = some c → c.sum = sess.bytes →
      (chunkHandler st b token lbl now).1 = ChunkRes.ok n →
      ∃ sess2 c2,
        alookup (chunkHandler st b token lbl now).2.inFlight b.uploadId = some sess2 ∧
        alookup (chunkHandler st b token lbl now).2.files sess2.filepath = some c2 ∧
        c2.sum = sess2.bytes) ∧
    (∀ (st : ServerState) (b : ChunkBody) (token lbl : String) (now : Nat)
        (size idx n : Nat),
      alookup st.inFlight b.uploadId = none →
      b.uploadId ≠ "" → b.chunk = some size → b.index = some (idx : Int) →
      (1 ≤ b.slot ∧ b.slot ≤ 6) →
      alookup st.files (b.uploadId ++ safeExt b.mimeType) = none →
      (chunkHandler st b token lbl now).1 = ChunkRes.ok n →
      ∃ sess2 c2,
        alookup (chunkHandler st b token lbl now).2.inFlight b.uploadId = some sess2 ∧
        alookup (chunkHandler st b token lbl now).2.files sess2.filepath = some c2 ∧
        c2.sum = sess2.bytes) := by
  constructor
  · intro st b token lbl now sess size idx c n hs hu hc hi hslot hf hsum hok
    rw [chunkHandler_existing_eq st b token lbl now sess size idx hs hu hc hi hslot]
      at hok ⊢
    rcases chunkChecks_cases st b token sess size idx now with hcase | hcase
    · rw [hcase]
      refine ⟨{ sess with
                  nextIndex := sess.nextIndex + 1,
                  bytes := sess.bytes + size,
                  lastTouched := now }, c ++ [size], ?_, ?_, ?_⟩
      · simp only [writeChunkState]
        exact alookup_ainsert_self _ _ _
      · simp only [writeChunkState, hf, Option.getD_some]
        exact alookup_ainsert_self _ _ _
      · simp [List.sum_append, hsum]
    · exact absurd hok (hcase.2 n)
  · intro st b token lbl now size idx n hs hu hc hi hslot hf hok
    rw [chunkHandler_fresh_eq st b token lbl now size idx hs hu hc hi hslot] at hok ⊢
    rw [createSessionState_fst] at hok ⊢
    rcases chunkChecks_cases (createSessionState st b token lbl now).2 b token
        (freshSession b token lbl now) size idx now with hcase | hcase
    · rw [hcase]
      have hfiles := createSessionState_files st b token lbl now hf
      refine ⟨{ freshSession b token lbl now with
                  nextIndex := (freshSession b token lbl now).nextIndex + 1,
                  bytes := (freshSession b token lbl now).bytes + size,
                  lastTouched := now }, [size], ?_, ?_, ?_⟩
      · simp only [writeChunkState]
        exact alookup_ainsert_self _ _ _
      · simp only [writeChunkState, hfiles]
        rw [alookup_ainsert_self, alookup_ainsert_self]
        simp
      · simp [freshSession]
    · exact absurd hok (hcase.2 n)

/-- Witness for C8: the accepted 5-byte chunk on the concrete state
leaves a session whose staging content sums to its bytes counter. -/
theorem staging_length_matches_bytes_written_witness :
    ∃ sess2 c2,
      alookup (chunkHandler exState exBody "tok" "Tester1" 7).2.inFlight "u" = some sess2 ∧
      alookup (chunkHandler exState exBody "tok" "Tester1" 7).2.files sess2.filepath
        = some c2 ∧
      c2.sum = sess2.bytes := by
  have h := staging_length_matches_bytes_written
  exact h.1 exState exBody "tok" "Tester1" 7 exSess 5 0 [] 1 (by decide) (by decide)
    (by decide) (by decide) (by decide) (by decide) (by decide) (by decide)

/-- Claim C9: a session idle beyond INFLIGHT_TTL_MS when the reaper
runs is removed together with its staging file and marker, and a
subsequent in-range chunk for the same uploadId declaring index 0 is
accepted into a brand-new session that starts at nextIndex 0 and moves
to 1. -/
theorem reaper_removes_stale_session_and_restart_at_zero
    (st : ServerState) (now : Nat) (uid : String) (sess : Session)
    (hs : alookup st.inFlight uid = some sess)
    (hstale : now - sess.lastTouched > INFLIGHT_TTL_MS) :
    alookup (reaperSweep st now).inFlight uid = none ∧
    alookup (reaperSweep st now).files sess.filepath = none ∧
    alookup (reaperSweep st now).markers uid = none ∧
    (∀ (b : ChunkBody) (token lbl : String) (now2 size : Nat),
      b.uploadId = uid → uid ≠ "" → b.chunk = some size →
      b.index = some ((0 : Nat) : Int) → (1 ≤ b.slot ∧ b.slot ≤ 6) →
      size ≤ PER_UPLOAD_MAX_BYTES →
      (freshSession b token lbl now2).nextIndex = 0 ∧
      (chunkHandler (reaperSweep st now) b token lbl now2).1 = ChunkRes.ok 1 ∧
      ∃ s2, alookup (chunkHandler (reaperSweep st now) b token lbl now2).2.inFlight uid
          = some s2 ∧
        s2.nextIndex = 1 ∧ s2.bytes = size ∧ s2.ownerTok = token) := by
  have hmem := alookup_mem st.inFlight uid sess hs
  have hfold := reapFold_removes st.inFlight st now uid sess hmem hstale
  have hin : alookup (reaperSweep st now).inFlight uid = none := by
    simp only [reaperSweep]
    exact hfold.1
  have hfi : alookup (reaperSweep st now).files sess.filepath = none := by
    simp only [reaperSweep]
    exact hfold.2.1
  have hma : alookup (reaperSweep st now).markers uid = none := by
    simp only [reaperSweep]
    exact alookup_filter_keep_none _ _ _ hfold.2.2
  refine ⟨hin, hfi, hma, ?_⟩
  intro b token lbl now2 size hb hu hc hi hslot hsize
  have hin2 : alookup (reaperSweep st now).inFlight b.uploadId = none := by
    rw [hb]
    exact hin
  rw [chunkHandler_fresh_eq (reaperSweep st now) b token lbl now2 size 0 hin2
    (hb ▸ hu) hc hi hslot]
  rw [createSessionState_fst]
  rw [chunkChecks_accept _ b token _ size 0 now2 rfl rfl rfl
    (by simpa [freshSession] using hsize)]
  refine ⟨rfl, rfl, ?_⟩
  refine ⟨{ freshSession b token lbl now2 with
              nextIndex := (freshSession b token lbl now2).nextIndex + 1,
              bytes := (freshSession b token lbl now2).bytes + size,
              lastTouched := now2 }, ?_, ?_, ?_, ?_⟩
  · simp only [writeChunkState]
    rw [← hb]
    exact alookup_ainsert_self _ _ _
  · simp [freshSession]
  · simp [freshSession]
  · simp [freshSession]

/-- Witness for C9: sweeping at time 7200001 removes the session of
upload u (idle since time 0) with its file and marker, and a fresh
index-0 chunk is then accepted at nextIndex 0. -/
theorem reaper_removes_stale_session_and_restart_at_zero_witness :
    alookup (reaperSweep exState 7200001).inFlight "u" = none ∧
    alookup (reaperSweep exState 7200001).files "u.webm" = none ∧
    alookup (reaperSweep exState 7200001).markers "u" = none ∧
    (chunkHandler (reaperSweep exState 7200001) exBody "tok" "Tester1" 8000000).1
      = ChunkRes.ok 1 := by
  have h := reaper_removes_stale_session_and_restart_at_zero exState 7200001 "u" exSess
    (by decide) (by decide)
  have h4 := h.2.2.2 exBody "tok" "Tester1" 8000000 5 rfl (by decide) (by decide)
    (by decide) (by decide) (by decide)
  exact ⟨h.1, h.2.1, h.2.2.1, h4.2.1⟩

end Srv
